import Mathlib

/-!
Shallow embedding of src/testedeprojeto.py (order-lifecycle, load
consolidation, access policy, user table, operation log).

Conventions of the embedding:
- spreadsheet rows become Lean structures; the orders worksheet "pedidos"
  is a list of `Pedido` in sheet order (header row omitted: its first cell
  "id" never equals a numeric order id, so it never matches any scan);
- Python floats become exact rationals; Python round(x, 2) becomes
  `round2` below;
- ids are naturals; the code compares ids through str(...) on both sides,
  which for canonical decimal numerals agrees with equality on naturals.
-/

namespace Testedeprojeto

/-- A row of the "pedidos" worksheet: id, cliente, produto, caixas, peso,
status (columns 1..6). -/
structure Pedido where
  id : Nat
  cliente : String
  produto : String
  caixas : Nat
  peso : ℚ
  status : String
deriving DecidableEq, Repr

/-- A row of the "historico" worksheet: id, cliente, produto, delivered
box count, delivered weight, status, date (columns 1..7). -/
structure HistEntry where
  id : Nat
  cliente : String
  produto : String
  qtdEntregue : Nat
  pesoEntregue : ℚ
  status : String
  data : String
deriving DecidableEq, Repr

/-- A row of the "usuarios" worksheet: usuario, senha, nivel, modulos. -/
structure Usuario where
  usuario : String
  senha : String
  nivel : String
  modulos : String
deriving DecidableEq, Repr

/-- Python round(x, 2): round to 2 decimal places. -/
def round2 (x : ℚ) : ℚ := (round (100 * x) : ℤ) / 100

/-- peso_u of line 250: the peso column divided by the caixas column. -/
def pesoUnit (r : Pedido) : ℚ := r.peso / (r.caixas : ℚ)

/-- The joint state of the "pedidos" and "historico" worksheets. -/
structure Estado where
  pedidos : List Pedido
  historico : List HistEntry
deriving DecidableEq, Repr

/-- Predicate of the deletion scan in step 3 of the delivery confirmation
(line 266): the first cell equals the order id and the sixth cell is
"em rota". -/
def matchEmRota (i : Nat) (p : Pedido) : Bool :=
  p.id == i && p.status == "em rota"

/-- The history row appended in step 1 of the delivery confirmation
(lines 252-256). -/
def histEntryOf (r : Pedido) (q : Nat) (d : String) : HistEntry :=
  ⟨r.id, r.cliente, r.produto, q, round2 ((q : ℚ) * pesoUnit r), "entregue", d⟩

/-- The residual pending row appended in step 2 when sobra > 0
(line 261). -/
def residualOf (r : Pedido) (q : Nat) : Pedido :=
  ⟨r.id, r.cliente, r.produto, r.caixas - q,
    round2 (((r.caixas - q : Nat) : ℚ) * pesoUnit r), "pendente"⟩

/-- Confirmar Baixa (lines 249-269): for an in-route row `r` and delivered
quantity `q`, (1) append a history row, (2) if sobra > 0 append a residual
pending row, (3) delete the first row of the (re-fetched) pedidos sheet
matching id `r.id` with status "em rota". -/
def confirmarBaixa (s : Estado) (r : Pedido) (q : Nat) (d : String) : Estado :=
  let hist := s.historico ++ [histEntryOf r q d]
  let sobra := r.caixas - q
  let ped1 := if sobra > 0 then s.pedidos ++ [residualOf r q] else s.pedidos
  { pedidos := ped1.eraseP (matchEmRota r.id), historico := hist }

theorem eraseP_first_match {α : Type} (p : α → Bool) (l₁ l₂ : List α) (a : α)
    (h₁ : ∀ x ∈ l₁, p x = false) (ha : p a = true) :
    (l₁ ++ a :: l₂).eraseP p = l₁ ++ l₂ := by
  induction l₁ with
  | nil => simp [List.eraseP_cons, ha]
  | cons b t ih =>
    have hb : p b = false := h₁ b (List.mem_cons_self b t)
    simp [List.eraseP_cons, hb,
      ih (fun x hx => h₁ x (List.mem_cons_of_mem _ hx))]

/-- C1: for an in-transit order r with 0 < q < r.caixas, confirming delivery
appends exactly one history entry with delivered box count q and delivered
weight round(q · (peso / caixas), 2), appends exactly one new pending order
with the same id, box count caixas − q and weight
round((caixas − q) · (peso / caixas), 2), and deletes the original
in-transit row. -/
theorem confirmarBaixa_parcial (s : Estado) (l₁ l₂ : List Pedido) (r : Pedido)
    (q : Nat) (d : String)
    (hped : s.pedidos = l₁ ++ r :: l₂)
    (hrot : r.status = "em rota")
    (hfirst : ∀ p ∈ l₁, matchEmRota r.id p = false)
    (hq0 : 0 < q) (hqlt : q < r.caixas) :
    (confirmarBaixa s r q d).historico
      = s.historico ++ [⟨r.id, r.cliente, r.produto, q,
          round2 ((q : ℚ) * (r.peso / (r.caixas : ℚ))), "entregue", d⟩] ∧
    (confirmarBaixa s r q d).pedidos
      = (l₁ ++ l₂) ++ [⟨r.id, r.cliente, r.produto, r.caixas - q,
          round2 (((r.caixas - q : Nat) : ℚ) * (r.peso / (r.caixas : ℚ))),
          "pendente"⟩] := by
  have hr : matchEmRota r.id r = true := by simp [matchEmRota, hrot]
  have hsobra : 0 < r.caixas - q := Nat.sub_pos_of_lt hqlt
  refine ⟨rfl, ?_⟩
  show ((if r.caixas - q > 0 then s.pedidos ++ [residualOf r q] else s.pedidos).eraseP
      (matchEmRota r.id)) = _
  rw [if_pos hsobra, hped, List.append_assoc, List.cons_append,
    eraseP_first_match _ l₁ (l₂ ++ [residualOf r q]) r hfirst hr,
    ← List.append_assoc]
  rfl

/-- Witness for C1 at a concrete state: one in-route order of 3 boxes and
weight 10, delivering 1 box. -/
theorem confirmarBaixa_parcial_witness :
    (confirmarBaixa ⟨[⟨1, "A (SP)", "X", 3, 10, "em rota"⟩], []⟩
        ⟨1, "A (SP)", "X", 3, 10, "em rota"⟩ 1 "d").historico
      = [⟨1, "A (SP)", "X", 1, round2 ((1 : ℚ) * (10 / 3)), "entregue", "d"⟩] ∧
    (confirmarBaixa ⟨[⟨1, "A (SP)", "X", 3, 10, "em rota"⟩], []⟩
        ⟨1, "A (SP)", "X", 3, 10, "em rota"⟩ 1 "d").pedidos
      = [⟨1, "A (SP)", "X", 2, round2 (((2 : Nat) : ℚ) * (10 / 3)), "pendente"⟩] := by
  have h := confirmarBaixa_parcial ⟨[⟨1, "A (SP)", "X", 3, 10, "em rota"⟩], []⟩
    [] [] ⟨1, "A (SP)", "X", 3, 10, "em rota"⟩ 1 "d" rfl rfl
    (by intro p hp; simp at hp) (by decide) (by decide)
  simpa using h

/-- C2: confirming delivery of the full box count appends exactly one new
history entry, appends no residual pending order, and deletes the original
in-transit row. -/
theorem confirmarBaixa_total (s : Estado) (l₁ l₂ : List Pedido) (r : Pedido)
    (d : String)
    (hped : s.pedidos = l₁ ++ r :: l₂)
    (hrot : r.status = "em rota")
    (hfirst : ∀ p ∈ l₁, matchEmRota r.id p = false) :
    (confirmarBaixa s r r.caixas d).historico
      = s.historico ++ [⟨r.id, r.cliente, r.produto, r.caixas,
          round2 ((r.caixas : ℚ) * (r.peso / (r.caixas : ℚ))), "entregue", d⟩] ∧
    (confirmarBaixa s r r.caixas d).pedidos = l₁ ++ l₂ := by
  have hr : matchEmRota r.id r = true := by simp [matchEmRota, hrot]
  refine ⟨rfl, ?_⟩
  show ((if r.caixas - r.caixas > 0 then s.pedidos ++ [residualOf r r.caixas]
      else s.pedidos).eraseP (matchEmRota r.id)) = _
  rw [if_neg (by simp), hped, eraseP_first_match _ l₁ l₂ r hfirst hr]

/-- Witness for C2 at a concrete state: delivering all 3 boxes leaves no
pending residual. -/
theorem confirmarBaixa_total_witness :
    (confirmarBaixa ⟨[⟨1, "A (SP)", "X", 3, 10, "em rota"⟩], []⟩
        ⟨1, "A (SP)", "X", 3, 10, "em rota"⟩ 3 "d").historico
      = [⟨1, "A (SP)", "X", 3, round2 ((3 : ℚ) * (10 / 3)), "entregue", "d"⟩] ∧
    (confirmarBaixa ⟨[⟨1, "A (SP)", "X", 3, 10, "em rota"⟩], []⟩
        ⟨1, "A (SP)", "X", 3, 10, "em rota"⟩ 3 "d").pedidos = [] := by
  have h := confirmarBaixa_total ⟨[⟨1, "A (SP)", "X", 3, 10, "em rota"⟩], []⟩
    [] [] ⟨1, "A (SP)", "X", 3, 10, "em rota"⟩ "d" rfl rfl
    (by intro p hp; simp at hp)
  simpa using h

/-- Permission test of the dispatch button (line 211): the user nivel is
"total" or the user login is "admin". -/
def podeConfirmarRota (u : Usuario) : Bool :=
  u.nivel == "total" || u.usuario == "admin"

/-- The bulk status write shared by dispatch (lines 213-215) and
return-to-pending (lines 241-243): every row whose id is among the
selected ids gets its status cell (column 6) overwritten, with no check
on the current status. -/
def setStatusByIds (ids : List Nat) (st : String) (pedidos : List Pedido) :
    List Pedido :=
  pedidos.map fun p => if p.id ∈ ids then { p with status := st } else p

/-- Attempting dispatch (lines 211-219). Returns the resulting pedidos
sheet and whether the read-only warning was displayed: when the permission
test passes the selected ids are set to "em rota" (the elif is then not
reached); otherwise nothing is written and the warning appears exactly
when nivel == "visualizacao". -/
def tentarConfirmarRota (u : Usuario) (ids : List Nat) (pedidos : List Pedido) :
    List Pedido × Bool :=
  if podeConfirmarRota u then (setStatusByIds ids "em rota" pedidos, false)
  else if u.nivel == "visualizacao" then (pedidos, true)
  else (pedidos, false)

/-- Confirmar Retorno (lines 239-244): sets status "pendente" on every row
whose id is among the selected ids; the logged-in user is never consulted. -/
def confirmarRetorno (u : Usuario) (ids : List Nat) (pedidos : List Pedido) :
    List Pedido :=
  setStatusByIds ids "pendente" pedidos

/-- C3: dispatch changes orders to in-transit only for nivel "total" or the
admin login; any other identity (whose nivel, per the data model, is then
"visualizacao") leaves the sheet untouched and is shown the visible
warning. -/
theorem tentarConfirmarRota_permissao (u : Usuario) (ids : List Nat)
    (pedidos : List Pedido)
    (henum : u.nivel = "total" ∨ u.nivel = "visualizacao")
    (hother : ¬(u.nivel = "total" ∨ u.usuario = "admin")) :
    (tentarConfirmarRota u ids pedidos).1 = pedidos ∧
    (tentarConfirmarRota u ids pedidos).2 = true := by
  have hn : u.nivel ≠ "total" := fun h => hother (Or.inl h)
  have ha : u.usuario ≠ "admin" := fun h => hother (Or.inr h)
  have h2 : u.nivel = "visualizacao" := henum.resolve_left hn
  simp [tentarConfirmarRota, podeConfirmarRota, hn, ha, h2]

/-- Witness for C3: a read-only user attempting dispatch of a pending
order leaves it pending and sees the warning. -/
theorem tentarConfirmarRota_permissao_witness :
    (tentarConfirmarRota ⟨"maria", "s", "visualizacao", "todos"⟩ [1]
        [⟨1, "A (SP)", "X", 3, 10, "pendente"⟩]).1
      = [⟨1, "A (SP)", "X", 3, 10, "pendente"⟩] ∧
    (tentarConfirmarRota ⟨"maria", "s", "visualizacao", "todos"⟩ [1]
        [⟨1, "A (SP)", "X", 3, 10, "pendente"⟩]).2 = true := by
  have h := tentarConfirmarRota_permissao ⟨"maria", "s", "visualizacao", "todos"⟩
    [1] [⟨1, "A (SP)", "X", 3, 10, "pendente"⟩] (Or.inr rfl) (by simp)
  simpa using h

/-- C7: return-to-pending ignores the actor entirely — any two users get
the same result — every selected in-transit row comes back as "pendente",
and this is asymmetric with dispatch, whose outcome does depend on the
user. -/
theorem confirmarRetorno_sem_permissao :
    (∀ u₁ u₂ : Usuario, ∀ ids pedidos,
       confirmarRetorno u₁ ids pedidos = confirmarRetorno u₂ ids pedidos) ∧
    (∀ u : Usuario, ∀ ids pedidos, ∀ p ∈ pedidos, p.id ∈ ids →
       p.status = "em rota" →
       { p with status := "pendente" } ∈ confirmarRetorno u ids pedidos) ∧
    (∃ u₁ u₂ : Usuario, ∃ ids pedidos,
       tentarConfirmarRota u₁ ids pedidos ≠ tentarConfirmarRota u₂ ids pedidos) := by
  refine ⟨fun _ _ _ _ => rfl, ?_, ?_⟩
  · intro u ids pedidos p hp hid _
    simp only [confirmarRetorno, setStatusByIds]
    refine List.mem_map.mpr ⟨p, hp, ?_⟩
    simp [hid]
  · refine ⟨⟨"chefe", "s", "total", "todos"⟩, ⟨"maria", "s", "visualizacao", "todos"⟩,
      [1], [⟨1, "A (SP)", "X", 3, 10, "pendente"⟩], by decide⟩

/-- Witness for C7: returning order id 1 puts it back to "pendente" for a
read-only user just as for any other. -/
theorem confirmarRetorno_sem_permissao_witness :
    ({ id := 1, cliente := "A (SP)", produto := "X", caixas := 3, peso := 10,
       status := "pendente" } : Pedido)
      ∈ confirmarRetorno ⟨"maria", "s", "visualizacao", "todos"⟩ [1]
          [⟨1, "A (SP)", "X", 3, 10, "em rota"⟩] := by
  have h := confirmarRetorno_sem_permissao.2.1
    ⟨"maria", "s", "visualizacao", "todos"⟩ [1]
    [⟨1, "A (SP)", "X", 3, 10, "em rota"⟩]
    ⟨1, "A (SP)", "X", 3, 10, "em rota"⟩ (by simp) (by simp) rfl
  simpa using h

/-- C8: both bulk status writes match rows by id alone with no status
check: under dispatch every same-id row becomes "em rota" and under
return-to-pending every same-id row becomes "pendente", whatever its
current status; concretely, dispatching id 5 when the sheet holds two
id-5 pending rows (for example a residual created by a split) flips both
to "em rota" although only one was selected. -/
theorem setStatus_por_id :
    (∀ u : Usuario, ∀ ids pedidos, podeConfirmarRota u = true →
       ∀ p ∈ pedidos, p.id ∈ ids →
       { p with status := "em rota" } ∈ (tentarConfirmarRota u ids pedidos).1) ∧
    (∀ u : Usuario, ∀ ids pedidos, ∀ p ∈ pedidos, p.id ∈ ids →
       { p with status := "pendente" } ∈ confirmarRetorno u ids pedidos) ∧
    ((tentarConfirmarRota ⟨"admin", "s", "total", "todos"⟩ [5]
        [⟨5, "A (SP)", "X", 2, 4, "pendente"⟩, ⟨5, "A (SP)", "X", 3, 6, "pendente"⟩]).1
      = [⟨5, "A (SP)", "X", 2, 4, "em rota"⟩, ⟨5, "A (SP)", "X", 3, 6, "em rota"⟩]) := by
  refine ⟨?_, ?_, by decide⟩
  · intro u ids pedidos hperm p hp hid
    have h1 : (tentarConfirmarRota u ids pedidos).1
        = setStatusByIds ids "em rota" pedidos := by
      simp [tentarConfirmarRota, hperm]
    rw [h1]
    simp only [setStatusByIds]
    refine List.mem_map.mpr ⟨p, hp, ?_⟩
    simp [hid]
  · intro u ids pedidos p hp hid
    simp only [confirmarRetorno, setStatusByIds]
    refine List.mem_map.mpr ⟨p, hp, ?_⟩
    simp [hid]

/-- Witness for C8: an in-route row with a matching id is also rewritten
by dispatch, despite not being pending. -/
theorem setStatus_por_id_witness :
    ({ id := 5, cliente := "B (RJ)", produto := "Y", caixas := 4, peso := 8,
       status := "em rota" } : Pedido)
      ∈ (tentarConfirmarRota ⟨"admin", "s", "total", "todos"⟩ [5]
          [⟨5, "B (RJ)", "Y", 4, 8, "em rota"⟩]).1 := by
  have h := setStatus_por_id.1 ⟨"admin", "s", "total", "todos"⟩ [5]
    [⟨5, "B (RJ)", "Y", 4, 8, "em rota"⟩] (by decide)
    ⟨5, "B (RJ)", "Y", 4, 8, "em rota"⟩ (by simp) (by simp)
  simpa using h

/-- One matching row under the edit loop (lines 156-161): columns 2
(cliente), 4 (caixas) and 5 (peso) are rewritten; the weight is
ed_qtd * p_u where p_u, the peso column of the selected pending row sel
divided by its caixas column, comes from sel alone. -/
def linhaEditada (sel p : Pedido) (edCli : String) (edQtd : Nat) : Pedido :=
  { p with
    cliente := edCli
    caixas := edQtd
    peso := (edQtd : ℚ) * (sel.peso / (sel.caixas : ℚ)) }

/-- Salvar Alterações (lines 154-161): every row whose id equals the
selected pending row id is rewritten (the loop has no break). -/
def editarPedido (pedidos : List Pedido) (sel : Pedido) (edCli : String)
    (edQtd : Nat) : List Pedido :=
  pedidos.map fun p =>
    if p.id == sel.id then linhaEditada sel p edCli edQtd else p

theorem round2_err (x : ℚ) : |round2 x - x| ≤ 1 / 200 := by
  have h := abs_sub_round (α := ℚ) (100 * x)
  have he : round2 x - x = -((100 * x - ((round (100 * x) : ℤ) : ℚ)) / 100) := by
    rw [round2]; ring
  rw [he, abs_neg, abs_div, show |(100 : ℚ)| = 100 by norm_num]
  linarith

/-- C6: the per-box weight is immutable: editing the box count stores
new_count times the selected row unit weight and keeps the unit weight
unchanged, and both portions of a split use the same unit weight, so the
delivered weight plus the residual weight reproduces the original weight
up to rounding at 2 decimals. -/
theorem peso_unitario_invariante (sel r : Pedido) (edCli : String)
    (edQtd q : Nat) (d : String)
    (hq : 0 < edQtd) (hrc : 0 < r.caixas) (hle : q ≤ r.caixas) :
    (linhaEditada sel sel edCli edQtd).peso
      = (edQtd : ℚ) * (sel.peso / (sel.caixas : ℚ)) ∧
    (linhaEditada sel sel edCli edQtd).peso
        / ((linhaEditada sel sel edCli edQtd).caixas : ℚ)
      = sel.peso / (sel.caixas : ℚ) ∧
    |(histEntryOf r q d).pesoEntregue + (residualOf r q).peso - r.peso| ≤ 1 / 100 := by
  have hqQ : ((edQtd : ℚ)) ≠ 0 := Nat.cast_ne_zero.mpr (Nat.pos_iff_ne_zero.mp hq)
  refine ⟨rfl, ?_, ?_⟩
  · show ((edQtd : ℚ) * (sel.peso / (sel.caixas : ℚ))) / ((edQtd : ℚ)) = _
    rw [mul_div_cancel_left₀ _ hqQ]
  · have hcQ : ((r.caixas : ℚ)) ≠ 0 :=
      Nat.cast_ne_zero.mpr (Nat.pos_iff_ne_zero.mp hrc)
    set a : ℚ := (q : ℚ) * pesoUnit r with ha
    set b : ℚ := ((r.caixas - q : Nat) : ℚ) * pesoUnit r with hb
    have hsum : a + b = r.peso := by
      rw [ha, hb, Nat.cast_sub hle, pesoUnit]
      field_simp
      ring
    have e1 := round2_err a
    have e2 := round2_err b
    have hshape : (histEntryOf r q d).pesoEntregue + (residualOf r q).peso - r.peso
        = (round2 a - a) + (round2 b - b) := by
      show round2 a + round2 b - r.peso = _
      rw [← hsum]; ring
    rw [hshape]
    calc |(round2 a - a) + (round2 b - b)|
        ≤ |round2 a - a| + |round2 b - b| := abs_add _ _
      _ ≤ 1 / 200 + 1 / 200 := add_le_add e1 e2
      _ = 1 / 100 := by norm_num

/-- Witness for C6: an order of 3 boxes weighing 10 kg, edited to 2 boxes
and split by delivering 1 box. -/
theorem peso_unitario_invariante_witness :
    (linhaEditada ⟨1, "A (SP)", "X", 3, 10, "pendente"⟩
        ⟨1, "A (SP)", "X", 3, 10, "pendente"⟩ "B (RJ)" 2).peso
      = ((2 : Nat) : ℚ) * ((10 : ℚ) / ((3 : Nat) : ℚ)) ∧
    (linhaEditada ⟨1, "A (SP)", "X", 3, 10, "pendente"⟩
        ⟨1, "A (SP)", "X", 3, 10, "pendente"⟩ "B (RJ)" 2).peso
        / (((linhaEditada ⟨1, "A (SP)", "X", 3, 10, "pendente"⟩
            ⟨1, "A (SP)", "X", 3, 10, "pendente"⟩ "B (RJ)" 2).caixas : Nat) : ℚ)
      = ((10 : ℚ) / ((3 : Nat) : ℚ)) ∧
    |(histEntryOf ⟨1, "A (SP)", "X", 3, 10, "em rota"⟩ 1 "d").pesoEntregue
        + (residualOf ⟨1, "A (SP)", "X", 3, 10, "em rota"⟩ 1).peso - (10 : ℚ)| ≤ 1 / 100 := by
  have h := peso_unitario_invariante ⟨1, "A (SP)", "X", 3, 10, "pendente"⟩
    ⟨1, "A (SP)", "X", 3, 10, "em rota"⟩ "B (RJ)" 2 1 "d"
    (by decide) (by decide) (by decide)
  exact h

/-- Salvar usuário (lines 88-94): if the login already exists, the first
matching sheet row is deleted; the new row is then appended. -/
def salvarUsuario (users : List Usuario) (novo : Usuario) : List Usuario :=
  (if users.any (fun u => u.usuario == novo.usuario) then
    users.eraseP (fun u => u.usuario == novo.usuario)
  else users) ++ [novo]

/-- C9: saving over an existing login deletes the old row and appends the
new one; saving a fresh login appends exactly one row; in both cases the
at-most-once invariant on logins is preserved. -/
theorem salvarUsuario_spec (users : List Usuario) (novo : Usuario)
    (hnd : (users.map Usuario.usuario).Nodup) :
    ((salvarUsuario users novo).map Usuario.usuario).Nodup ∧
    (∀ l₁ (old : Usuario) l₂, users = l₁ ++ old :: l₂ →
      old.usuario = novo.usuario →
      salvarUsuario users novo = (l₁ ++ l₂) ++ [novo]) ∧
    ((∀ u ∈ users, u.usuario ≠ novo.usuario) →
      salvarUsuario users novo = users ++ [novo]) := by
  have key : ∀ l₁ (old : Usuario) l₂, users = l₁ ++ old :: l₂ →
      old.usuario = novo.usuario →
      salvarUsuario users novo = (l₁ ++ l₂) ++ [novo] := by
    intro l₁ old l₂ hsplit heq
    have hany : users.any (fun u => u.usuario == novo.usuario) = true := by
      rw [hsplit]
      refine List.any_eq_true.mpr ⟨old, by simp, by simp [heq]⟩
    have hmid : old.usuario ∉ (l₁.map Usuario.usuario ++ l₂.map Usuario.usuario) ∧
        (l₁.map Usuario.usuario ++ l₂.map Usuario.usuario).Nodup := by
      apply List.nodup_cons.mp
      apply List.nodup_middle.mp
      rw [hsplit] at hnd
      simpa using hnd
    have hfirst : ∀ x ∈ l₁, (x.usuario == novo.usuario) = false := by
      intro x hx
      have hxne : x.usuario ≠ old.usuario := fun h => hmid.1
        (List.mem_append_left _ (h ▸ List.mem_map_of_mem Usuario.usuario hx))
      simp [← heq, hxne]
    rw [salvarUsuario, if_pos hany, hsplit,
      eraseP_first_match _ l₁ l₂ old hfirst (by simp [heq])]
  have fresh : (∀ u ∈ users, u.usuario ≠ novo.usuario) →
      salvarUsuario users novo = users ++ [novo] := by
    intro h
    have hany : users.any (fun u => u.usuario == novo.usuario) = false := by
      refine List.any_eq_false.mpr ?_
      intro u hu
      simp [h u hu]
    rw [salvarUsuario, if_neg (by simp [hany])]
  refine ⟨?_, key, fresh⟩
  by_cases hex : ∃ u ∈ users, u.usuario = novo.usuario
  · obtain ⟨u, hu, hequ⟩ := hex
    obtain ⟨l₁, l₂, hsplit⟩ := List.append_of_mem hu
    rw [key l₁ u l₂ hsplit hequ]
    have hmid : u.usuario ∉ (l₁.map Usuario.usuario ++ l₂.map Usuario.usuario) ∧
        (l₁.map Usuario.usuario ++ l₂.map Usuario.usuario).Nodup := by
      apply List.nodup_cons.mp
      apply List.nodup_middle.mp
      rw [hsplit] at hnd
      simpa using hnd
    simp only [List.map_append, List.map_cons, List.map_nil]
    rw [List.nodup_append]
    refine ⟨by simpa using hmid.2, List.nodup_singleton _, ?_⟩
    intro x hx hx1
    simp only [List.mem_singleton] at hx1
    exact hmid.1 (by simpa [hx1, hequ] using hx)
  · push_neg at hex
    rw [fresh hex]
    simp only [List.map_append, List.map_cons, List.map_nil]
    rw [List.nodup_append]
    refine ⟨hnd, List.nodup_singleton _, ?_⟩
    intro x hx hx1
    simp only [List.mem_singleton] at hx1
    obtain ⟨y, hy, hyx⟩ := List.mem_map.mp hx
    exact hex y hy (by rw [hyx, hx1])

/-- Witness for C9: saving login "bob" over a table already holding "ana"
and "bob" deletes the old "bob" row and appends the new one. -/
theorem salvarUsuario_spec_witness :
    salvarUsuario [⟨"ana", "1", "total", "todos"⟩,
        ⟨"bob", "2", "visualizacao", "Pedidos"⟩]
        ⟨"bob", "3", "total", "todos"⟩
      = [⟨"ana", "1", "total", "todos"⟩, ⟨"bob", "3", "total", "todos"⟩] ∧
    ((salvarUsuario [⟨"ana", "1", "total", "todos"⟩,
        ⟨"bob", "2", "visualizacao", "Pedidos"⟩]
        ⟨"bob", "3", "total", "todos"⟩).map Usuario.usuario).Nodup := by
  have h := salvarUsuario_spec [⟨"ana", "1", "total", "todos"⟩,
    ⟨"bob", "2", "visualizacao", "Pedidos"⟩] ⟨"bob", "3", "total", "todos"⟩
    (by decide)
  refine ⟨?_, h.1⟩
  have := h.2.1 [⟨"ana", "1", "total", "todos"⟩]
    ⟨"bob", "2", "visualizacao", "Pedidos"⟩ [] rfl rfl
  simpa using this

/-- Regex extraction of line 183, pattern \((.*?)\) over the chars of the
client label: the match starts at the first open parenthesis that is
followed by a close parenthesis, and the lazy group stops at the next
close parenthesis; a label with no such pair gives NaN, modelled none. -/
def extrairUFAux : List Char → Option String
  | [] => none
  | c :: rest =>
    if c = '(' then
      if rest.contains ')' then
        some (String.mk (rest.takeWhile (fun d => d != ')')))
      else none
    else extrairUFAux rest

/-- Column uf_extraida (line 183). -/
def extrairUF (s : String) : Option String := extrairUFAux s.toList

/-- Options of the UF multiselect (line 184): the distinct extracted UFs
(NaN dropped); the default selection is this whole list. -/
def ufsDisponiveis (pend : List Pedido) : List String :=
  (pend.filterMap (fun p => extrairUF p.cliente)).dedup

/-- df_filtrado (line 186): pending rows whose extracted UF is among the
chosen filter values; a row with no extracted UF never passes. -/
def filtrarPorUF (pend : List Pedido) (fuf : List String) : List Pedido :=
  pend.filter fun p =>
    match extrairUF p.cliente with
    | some u => fuf.contains u
    | none => false

/-- The selection table of the load-building screen (line 188) lists
df_filtrado, so exactly its rows are selectable for load building. -/
def poolSelecao (pend : List Pedido) (fuf : List String) : List Pedido :=
  filtrarPorUF pend fuf

/-- C5 counterexample: the pending order id 7 with client label "Acme"
(no parenthesized code) appears in no region-filtered result — even under
the default filter holding every available UF, and under any other
concrete choice — so the load-building selection table never contains it:
it is not selectable there, contradicting the claim that it remains
selectable for load building. -/
theorem extrairUF_nao_selecionavel :
    extrairUF "Acme" = none ∧
    ufsDisponiveis [⟨7, "Acme", "X", 3, 10, "pendente"⟩] = [] ∧
    poolSelecao [⟨7, "Acme", "X", 3, 10, "pendente"⟩]
      (ufsDisponiveis [⟨7, "Acme", "X", 3, 10, "pendente"⟩]) = [] ∧
    poolSelecao [⟨7, "Acme", "X", 3, 10, "pendente"⟩] ["SP", "RJ"] = [] := by
  refine ⟨rfl, rfl, rfl, rfl⟩

theorem contains_close (uf : List Char) : (uf ++ [')']).contains ')' = true := by
  induction uf with
  | nil => rfl
  | cons c t ih => simp [List.contains_cons, ih]

theorem takeWhile_ne_close (uf : List Char) (huf : ')' ∉ uf) :
    (uf ++ [')']).takeWhile (fun d => d != ')') = uf := by
  induction uf with
  | nil => simp [List.takeWhile]
  | cons c t ih =>
    have hc : c ≠ ')' := fun h => huf (h ▸ List.mem_cons_self c t)
    simp only [List.cons_append, List.takeWhile_cons]
    rw [if_pos (by simp [hc]), ih (fun h => huf (List.mem_cons_of_mem _ h))]

/-- C5 amended: region extraction takes the text of the first
parenthesized group, so "Acme (SP)" yields "SP"; and a pending order whose
label has no extractable code appears in no region-filtered result set and
is therefore never in the load-building selection table — it is not
selectable for load building at all (it stays reachable only on screens
that list every pending order). -/
theorem extrairUF_spec (pre uf : List Char) (p : Pedido)
    (pend : List Pedido) (fuf : List String)
    (hpre : '(' ∉ pre) (huf : ')' ∉ uf)
    (hnone : extrairUF p.cliente = none) :
    extrairUFAux (pre ++ '(' :: (uf ++ [')'])) = some (String.mk uf) ∧
    (p ∈ pend → p ∉ poolSelecao pend fuf) := by
  constructor
  · induction pre with
    | nil =>
      simp only [List.nil_append, extrairUFAux, if_pos rfl]
      rw [if_pos (contains_close uf), takeWhile_ne_close uf huf]
      simp
    | cons c t ih =>
      have hc : c ≠ '(' := fun h => hpre (h ▸ List.mem_cons_self c t)
      simp only [List.cons_append, extrairUFAux, if_neg hc]
      exact ih (fun h => hpre (List.mem_cons_of_mem _ h))
  · intro hmem hin
    have := (List.mem_filter.mp hin).2
    rw [hnone] at this
    simp at this

/-- Witness for C5 amended claim: extracting from "Acme (SP)" and the
non-selectability of the label "Acme". -/
theorem extrairUF_spec_witness :
    extrairUFAux (['A', 'c', 'm', 'e', ' '] ++ '(' :: (['S', 'P'] ++ [')']))
      = some (String.mk ['S', 'P']) ∧
    (⟨7, "Acme", "X", 3, 10, "pendente"⟩ : Pedido)
      ∉ poolSelecao [⟨7, "Acme", "X", 3, 10, "pendente"⟩] ["SP"] := by
  have h := extrairUF_spec ['A', 'c', 'm', 'e', ' '] ['S', 'P']
    ⟨7, "Acme", "X", 3, 10, "pendente"⟩
    [⟨7, "Acme", "X", 3, 10, "pendente"⟩] ["SP"]
    (by decide) (by decide) rfl
  exact ⟨h.1, h.2 (by simp)⟩

/-- Wall-clock components feeding strftime. -/
structure DataHora where
  dia : Nat
  mes : Nat
  ano : Nat
  hora : Nat
  minuto : Nat
  segundo : Nat
deriving DecidableEq, Repr

/-- Two-digit zero padding of strftime %d %m %H %M %S. -/
def pad2 (n : Nat) : String := if n < 10 then "0" ++ toString n else toString n

/-- strftime("%d/%m/%Y %H:%M:%S") of line 33. -/
def fmtDataHora (t : DataHora) : String :=
  pad2 t.dia ++ "/" ++ pad2 t.mes ++ "/" ++ toString t.ano ++ " " ++
    pad2 t.hora ++ ":" ++ pad2 t.minuto ++ ":" ++ pad2 t.segundo

/-- Environment of the operation-log writer: whether the connection, the
worksheet lookup and the append each succeed, the current log rows, and
the wall clock. -/
structure LogEnv where
  conectado : Bool
  temAba : Bool
  appendOk : Bool
  linhas : List (List String)
  agora : DataHora
deriving DecidableEq, Repr

/-- The try block of registrar_log (lines 31-33): get_gc, worksheet lookup
and append_row in order; the first failing step raises, a successful run
appends exactly one row. -/
def logAppendTry (env : LogEnv) (linha : List String) :
    Except String (List (List String)) :=
  if !env.conectado then .error "Erro na conexao"
  else if !env.temAba then .error "WorksheetNotFound"
  else if !env.appendOk then .error "APIError"
  else .ok (env.linhas ++ [linha])

/-- registrar_log (lines 29-34): the try/except-pass wrapper around the
append. The second component is what the caller ever sees of a failure:
always none. -/
def registrar_log (env : LogEnv) (usuario acao detalhes : String) :
    List (List String) × Option String :=
  match logAppendTry env [fmtDataHora env.agora, usuario, acao, detalhes] with
  | .ok novas => (novas, none)
  | .error _ => (env.linhas, none)

/-- C10: registrar_log never surfaces anything to its caller; when the
store succeeds it appends exactly one row [timestamp dd/mm/yyyy HH:MM:SS,
actor, action, detail]; when any step of the store fails the log is left
unchanged and the failure is swallowed. -/
theorem registrar_log_spec (env : LogEnv) (u a d : String) :
    (registrar_log env u a d).2 = none ∧
    (env.conectado = true → env.temAba = true → env.appendOk = true →
      (registrar_log env u a d).1
        = env.linhas ++ [[fmtDataHora env.agora, u, a, d]]) ∧
    (env.conectado = false ∨ env.temAba = false ∨ env.appendOk = false →
      (registrar_log env u a d).1 = env.linhas) := by
  obtain ⟨c, t, ok, l, n⟩ := env
  cases c <;> cases t <;> cases ok <;>
    simp [registrar_log, logAppendTry]

/-- Witness for C10: one succeeding environment appends the formatted row,
one disconnected environment leaves the log unchanged; neither surfaces
an error. -/
theorem registrar_log_spec_witness :
    (registrar_log ⟨true, true, true, [], ⟨11, 10, 2026, 9, 5, 7⟩⟩
        "admin" "ROTA" "Carga confirmada").1
      = [[fmtDataHora ⟨11, 10, 2026, 9, 5, 7⟩, "admin", "ROTA", "Carga confirmada"]] ∧
    (registrar_log ⟨false, true, true, [["x"]], ⟨11, 10, 2026, 9, 5, 7⟩⟩
        "admin" "ROTA" "Carga confirmada").1 = [["x"]] ∧
    (registrar_log ⟨false, true, true, [["x"]], ⟨11, 10, 2026, 9, 5, 7⟩⟩
        "admin" "ROTA" "Carga confirmada").2 = none := by
  refine ⟨?_, ?_, ?_⟩
  · have h := registrar_log_spec ⟨true, true, true, [], ⟨11, 10, 2026, 9, 5, 7⟩⟩
      "admin" "ROTA" "Carga confirmada"
    simpa using h.2.1 rfl rfl rfl
  · exact (registrar_log_spec ⟨false, true, true, [["x"]], ⟨11, 10, 2026, 9, 5, 7⟩⟩
      "admin" "ROTA" "Carga confirmada").2.2 (Or.inl rfl)
  · exact (registrar_log_spec ⟨false, true, true, [["x"]], ⟨11, 10, 2026, 9, 5, 7⟩⟩
      "admin" "ROTA" "Carga confirmada").1

/-- Distinct produto labels of the selection: the pivot columns
(line 192). -/
def colunas (sel : List Pedido) : List String := (sel.map Pedido.produto).dedup

/-- Distinct (id, cliente) pairs of the selection: the pivot row keys
(line 192). -/
def chaves (sel : List Pedido) : List (Nat × String) :=
  (sel.map fun p => (p.id, p.cliente)).dedup

/-- One pivot cell (line 192): sum of caixas over the selection rows with
the given (id, cliente) key and produto column; an empty group gives the
fill value 0. -/
def celulaPivot (sel : List Pedido) (k : Nat × String) (c : String) : ℚ :=
  ((sel.filter fun p => p.id == k.1 && p.cliente == k.2 && p.produto == c).map
    fun p => (p.caixas : ℚ)).sum

/-- One pivot row over the columns, extended by its TOTAL CX cell
(line 193: matriz.sum(axis=1), the row-wise sum). -/
def linhaPivot (sel : List Pedido) (k : Nat × String) : List ℚ :=
  (colunas sel).map (celulaPivot sel k)
    ++ [((colunas sel).map (celulaPivot sel k)).sum]

/-- Column-wise sums over a list of rows (line 194: matriz.sum()). -/
def somaColunas (rows : List (List ℚ)) (n : Nat) : List ℚ :=
  (List.range n).map fun j => (rows.map fun r => r.getD j 0).sum

/-- Per-produto weight sum (line 196: groupby produto sum of peso,
aggregated directly from peso, not from the box pivot). -/
def somaPeso (sel : List Pedido) (c : String) : ℚ :=
  ((sel.filter fun p => p.produto == c).map Pedido.peso).sum

/-- Grand total weight of the selection (line 199: the sum of the peso
column of df_sel). -/
def pesoTotal (sel : List Pedido) : ℚ := (sel.map Pedido.peso).sum

/-- Row labels of the final display matrix. -/
inductive Rotulo where
  | dado : Nat → String → Rotulo
  | totalCaixas : Rotulo
  | totalPeso : Rotulo
deriving DecidableEq, Repr

/-- df_final (lines 192-200): the pivot rows with the appended TOTAL CX
column, then the TOTAL CAIXAS row (column sums of the augmented pivot),
then the TOTAL PESO (kg) row (per-produto weight sums reindexed over the
pivot columns with the TOTAL CX cell overwritten by the grand total
weight), concatenated in that fixed order. -/
def matrizFinal (sel : List Pedido) : List String × List (Rotulo × List ℚ) :=
  (colunas sel ++ ["TOTAL CX"],
    ((chaves sel).map fun k => (Rotulo.dado k.1 k.2, linhaPivot sel k))
      ++ [(Rotulo.totalCaixas,
            somaColunas ((chaves sel).map (linhaPivot sel))
              ((colunas sel).length + 1)),
          (Rotulo.totalPeso,
            (colunas sel).map (somaPeso sel) ++ [pesoTotal sel])])

theorem sum_if_beq {κ : Type} [BEq κ] [LawfulBEq κ] (a : κ) (v : ℚ) (s : κ → ℚ) :
    ∀ K : List κ, K.Nodup → a ∈ K →
      (K.map fun c => if a == c then v + s c else s c).sum = v + (K.map s).sum := by
  intro K
  induction K with
  | nil => intro _ h; simp at h
  | cons c t ih =>
    intro hnd hmem
    by_cases h : a = c
    · subst h
      have hnotin : a ∉ t := (List.nodup_cons.mp hnd).1
      have ht : (t.map fun c => if a == c then v + s c else s c) = t.map s := by
        apply List.map_congr_left
        intro y hy
        have hne : (a == y) = false :=
          beq_eq_false_iff_ne.mpr (fun e => hnotin (e ▸ hy))
        rw [hne]
        simp
      simp only [List.map_cons, List.sum_cons, ht, beq_self_eq_true, if_true]
      ring
    · have hmem' : a ∈ t := by
        rcases List.mem_cons.mp hmem with h1 | h1
        · exact absurd h1 h
        · exact h1
      have hfalse : (a == c) = false := beq_eq_false_iff_ne.mpr h
      have := ih (List.nodup_cons.mp hnd).2 hmem'
      simp only [List.map_cons, List.sum_cons, hfalse, Bool.false_eq_true,
        if_false, this]
      ring

theorem sum_fibers {α κ : Type} [BEq κ] [LawfulBEq κ] (g : α → κ) (f : α → ℚ)
    (K : List κ) (hK : K.Nodup) :
    ∀ l : List α, (∀ x ∈ l, g x ∈ K) →
      (K.map fun c => ((l.filter fun x => g x == c).map f).sum).sum
        = (l.map f).sum := by
  intro l
  induction l with
  | nil => intro _; simp
  | cons x xs ih =>
    intro hcov
    have hx : g x ∈ K := hcov x (List.mem_cons_self x xs)
    have hxs := ih (fun y hy => hcov y (List.mem_cons_of_mem _ hy))
    have hstep : (K.map fun c => (((x :: xs).filter fun y => g y == c).map f).sum)
        = K.map fun c =>
            if g x == c then f x + ((xs.filter fun y => g y == c).map f).sum
            else ((xs.filter fun y => g y == c).map f).sum := by
      apply List.map_congr_left
      intro c _
      rw [List.filter_cons]
      by_cases h : (g x == c) = true
      · rw [if_pos h, if_pos h, List.map_cons, List.sum_cons]
      · rw [if_neg h, if_neg h]
    rw [hstep, sum_if_beq (g x) (f x) _ K hK hx, hxs]
    simp

theorem getD_append_lt {α : Type} (l₁ l₂ : List α) (d : α) (j : Nat)
    (h : j < l₁.length) : (l₁ ++ l₂).getD j d = l₁.getD j d := by
  induction l₁ generalizing j with
  | nil => simp at h
  | cons a t ih =>
    cases j with
    | zero => rfl
    | succ n =>
      simp only [List.cons_append, List.getD_cons_succ]
      exact ih n (by simpa using h)

theorem getD_append_len {α : Type} (l₁ l₂ : List α) (x d : α) :
    (l₁ ++ x :: l₂).getD l₁.length d = x := by
  induction l₁ with
  | nil => rfl
  | cons a t ih => simpa using ih

theorem getD_map_lt {α β : Type} (f : α → β) (l : List α) (j : Nat)
    (d : α) (d2 : β) (h : j < l.length) :
    (l.map f).getD j d2 = f (l.getD j d) := by
  induction l generalizing j with
  | nil => simp at h
  | cons a t ih =>
    cases j with
    | zero => rfl
    | succ n =>
      simp only [List.map_cons, List.getD_cons_succ]
      exact ih n (by simpa using h)

theorem linhaPivot_soma (sel : List Pedido) (k : Nat × String) :
    ((colunas sel).map (celulaPivot sel k)).sum
      = ((sel.filter fun p => p.id == k.1 && p.cliente == k.2).map
          fun p => (p.caixas : ℚ)).sum := by
  have hcell : ∀ c, celulaPivot sel k c
      = (((sel.filter fun p => p.id == k.1 && p.cliente == k.2).filter
          fun p => p.produto == c).map fun p => (p.caixas : ℚ)).sum := by
    intro c
    rw [celulaPivot, List.filter_filter]
    have hsw : (sel.filter fun p => p.id == k.1 && p.cliente == k.2 && p.produto == c)
        = sel.filter fun p => (p.produto == c) && (p.id == k.1 && p.cliente == k.2) := by
      apply List.filter_congr
      intro p _
      exact Bool.and_comm _ _
    rw [hsw]
  have hcongr : (colunas sel).map (celulaPivot sel k)
      = (colunas sel).map fun c =>
          (((sel.filter fun p => p.id == k.1 && p.cliente == k.2).filter
              fun p => p.produto == c).map fun p => (p.caixas : ℚ)).sum :=
    List.map_congr_left (fun c _ => hcell c)
  rw [hcongr]
  exact sum_fibers Pedido.produto (fun p => (p.caixas : ℚ)) (colunas sel)
    (List.nodup_dedup _) _
    (fun x hx => List.mem_dedup.mpr
      (List.mem_map_of_mem Pedido.produto (List.mem_of_mem_filter hx)))

theorem soma_total_caixas (sel : List Pedido) :
    ((chaves sel).map fun k => ((colunas sel).map (celulaPivot sel k)).sum).sum
      = (sel.map fun p => (p.caixas : ℚ)).sum := by
  have h1 : ((chaves sel).map fun k => ((colunas sel).map (celulaPivot sel k)).sum)
      = (chaves sel).map fun k =>
          ((sel.filter fun p => ((p.id, p.cliente) : Nat × String) == k).map
            fun p => (p.caixas : ℚ)).sum := by
    apply List.map_congr_left
    rintro ⟨k1, k2⟩ _
    rw [linhaPivot_soma]
    rfl
  rw [h1]
  exact sum_fibers (fun p => ((p.id, p.cliente) : Nat × String))
    (fun p => (p.caixas : ℚ)) (chaves sel) (List.nodup_dedup _) sel
    (fun x hx => List.mem_dedup.mpr (List.mem_map_of_mem _ hx))

theorem soma_total_peso (sel : List Pedido) :
    ((colunas sel).map (somaPeso sel)).sum = pesoTotal sel :=
  sum_fibers Pedido.produto Pedido.peso (colunas sel) (List.nodup_dedup _) sel
    (fun x hx => List.mem_dedup.mpr (List.mem_map_of_mem Pedido.produto hx))

/-- C4: the display matrix is built in the fixed order pivot rows, TOTAL
CAIXAS row, TOTAL PESO (kg) row, with a TOTAL CX column appended to the
pivot: each pivot row holds one cell per produto summing the caixas of
that (id, cliente) group, its TOTAL CX cell is the row-wise sum; the
TOTAL CAIXAS row holds the column-wise sums, its TOTAL CX cell being the
total box count of the whole selection; the TOTAL PESO row holds the
per-produto weight sums aggregated directly from peso, its TOTAL CX cell
being the grand total weight of the selection, which those per-produto
sums add back up to. -/
theorem matrizFinal_spec (sel : List Pedido) (hne : sel ≠ []) :
    (matrizFinal sel).1 = colunas sel ++ ["TOTAL CX"] ∧
    (matrizFinal sel).2
      = ((chaves sel).map fun k => (Rotulo.dado k.1 k.2, linhaPivot sel k))
        ++ [(Rotulo.totalCaixas,
              somaColunas ((chaves sel).map (linhaPivot sel))
                ((colunas sel).length + 1)),
            (Rotulo.totalPeso,
              (colunas sel).map (somaPeso sel) ++ [pesoTotal sel])] ∧
    (∀ k, ∀ j < (colunas sel).length,
      (linhaPivot sel k).getD j 0 = celulaPivot sel k ((colunas sel).getD j "")) ∧
    (∀ k, (linhaPivot sel k).getD (colunas sel).length 0
      = ((colunas sel).map (celulaPivot sel k)).sum) ∧
    (∀ j < (colunas sel).length,
      (somaColunas ((chaves sel).map (linhaPivot sel))
          ((colunas sel).length + 1)).getD j 0
        = ((chaves sel).map fun k => (linhaPivot sel k).getD j 0).sum) ∧
    ((somaColunas ((chaves sel).map (linhaPivot sel))
        ((colunas sel).length + 1)).getD (colunas sel).length 0
      = (sel.map fun p => (p.caixas : ℚ)).sum) ∧
    (∀ j < (colunas sel).length,
      ((colunas sel).map (somaPeso sel) ++ [pesoTotal sel]).getD j 0
        = somaPeso sel ((colunas sel).getD j "")) ∧
    (((colunas sel).map (somaPeso sel) ++ [pesoTotal sel]).getD
        (colunas sel).length 0 = pesoTotal sel) ∧
    (((colunas sel).map (somaPeso sel)).sum = pesoTotal sel) := by
  have hcells : ∀ k : Nat × String, ∀ j, j < (colunas sel).length →
      (linhaPivot sel k).getD j 0 = celulaPivot sel k ((colunas sel).getD j "") := by
    intro k j hj
    rw [linhaPivot, getD_append_lt _ _ _ _ (by simpa using hj),
      getD_map_lt (celulaPivot sel k) _ j "" 0 hj]
  have hrowtot : ∀ k : Nat × String, (linhaPivot sel k).getD (colunas sel).length 0
      = ((colunas sel).map (celulaPivot sel k)).sum := by
    intro k
    rw [linhaPivot]
    have := getD_append_len ((colunas sel).map (celulaPivot sel k)) []
      (((colunas sel).map (celulaPivot sel k)).sum) 0
    simpa using this
  have hcolsum : ∀ j, j < (colunas sel).length + 1 →
      (somaColunas ((chaves sel).map (linhaPivot sel))
          ((colunas sel).length + 1)).getD j 0
        = (((chaves sel).map (linhaPivot sel)).map fun r => r.getD j 0).sum := by
    intro j hj
    rw [somaColunas, getD_map_lt _ (List.range ((colunas sel).length + 1)) j 0 0
      (by simpa using hj), List.getD_eq_getElem?_getD, List.getElem?_range hj]
    rfl
  refine ⟨rfl, rfl, hcells, hrowtot, ?_, ?_, ?_, ?_, soma_total_peso sel⟩
  · intro j hj
    rw [hcolsum j (Nat.lt_succ_of_lt hj), List.map_map]
    rfl
  · rw [hcolsum (colunas sel).length (Nat.lt_succ_self _), List.map_map]
    have hmc : ((chaves sel).map ((fun r => r.getD (colunas sel).length 0) ∘
        linhaPivot sel))
        = (chaves sel).map fun k => ((colunas sel).map (celulaPivot sel k)).sum :=
      List.map_congr_left (fun k _ => hrowtot k)
    rw [hmc, soma_total_caixas]
  · intro j hj
    rw [getD_append_lt _ _ _ _ (by simpa using hj),
      getD_map_lt (somaPeso sel) _ j "" 0 hj]
  · have := getD_append_len ((colunas sel).map (somaPeso sel)) []
      (pesoTotal sel) 0
    simpa using this

/-- Witness for C4 at the specification example: orders (1, "A (SP)", "X",
3 boxes, 9 kg) and (2, "B (SP)", "X", 5 boxes, 15 kg). -/
theorem matrizFinal_spec_witness :
    (matrizFinal [⟨1, "A (SP)", "X", 3, 9, "pendente"⟩,
        ⟨2, "B (SP)", "X", 5, 15, "pendente"⟩]).1 = ["X", "TOTAL CX"] ∧
    celulaPivot [⟨1, "A (SP)", "X", 3, 9, "pendente"⟩,
        ⟨2, "B (SP)", "X", 5, 15, "pendente"⟩] (1, "A (SP)") "X" = 3 ∧
    celulaPivot [⟨1, "A (SP)", "X", 3, 9, "pendente"⟩,
        ⟨2, "B (SP)", "X", 5, 15, "pendente"⟩] (2, "B (SP)") "X" = 5 ∧
    (somaColunas ((chaves [⟨1, "A (SP)", "X", 3, 9, "pendente"⟩,
          ⟨2, "B (SP)", "X", 5, 15, "pendente"⟩]).map
        (linhaPivot [⟨1, "A (SP)", "X", 3, 9, "pendente"⟩,
          ⟨2, "B (SP)", "X", 5, 15, "pendente"⟩]))
        ((colunas [⟨1, "A (SP)", "X", 3, 9, "pendente"⟩,
          ⟨2, "B (SP)", "X", 5, 15, "pendente"⟩]).length + 1)).getD
        (colunas [⟨1, "A (SP)", "X", 3, 9, "pendente"⟩,
          ⟨2, "B (SP)", "X", 5, 15, "pendente"⟩]).length 0 = 8 ∧
    ((colunas [⟨1, "A (SP)", "X", 3, 9, "pendente"⟩,
        ⟨2, "B (SP)", "X", 5, 15, "pendente"⟩]).map
      (somaPeso [⟨1, "A (SP)", "X", 3, 9, "pendente"⟩,
        ⟨2, "B (SP)", "X", 5, 15, "pendente"⟩])).sum = 24 := by
  have h := matrizFinal_spec [⟨1, "A (SP)", "X", 3, 9, "pendente"⟩,
    ⟨2, "B (SP)", "X", 5, 15, "pendente"⟩] (by simp)
  have hcol : colunas [⟨1, "A (SP)", "X", 3, 9, "pendente"⟩,
      ⟨2, "B (SP)", "X", 5, 15, "pendente"⟩] = ["X"] := by decide
  refine ⟨?_, by norm_num [celulaPivot], by norm_num [celulaPivot], ?_, ?_⟩
  · rw [h.1, hcol]
    rfl
  · rw [h.2.2.2.2.2.1]
    norm_num
  · rw [h.2.2.2.2.2.2.2.2]
    norm_num [pesoTotal]

end Testedeprojeto
